import Mathlib

/-!
Verification development for the IRIS 2.0 voice-orchestration core.

The definitions below are a shallow embedding of the two source files that
implement the orchestration core:

* `hooks/useVoiceCommands.ts` — the Recognition Lifecycle Manager (RLM),
  modelled by `RLMState` and the handler functions `onresult`, `onend`,
  `restartTimerFire`, `resumeAfterProcessing`, `resumeTimerFire`,
  `stopListening`, `resumeListening`, `resumeListenTimerFire`.
  The SINGLE_SHOT listening model of the spec corresponds to
  `mobile = true` in the source (`recognition.continuous = !isMobileRef`),
  and the spec's `isAwaitingCommandCompletion` flag is the source's
  `isProcessingTranscript` ref.

* `App.tsx` — the Command Coordinator, modelled by `CCState`,
  `handleVoiceCommand`, `handleAction` and the per-action handlers, and the
  two Polling Loop Engines, modelled per iteration by `liveIteration`
  (`runLiveCommentary`'s loop body) and `finderIteration`
  (`runObjectFinder`'s loop body).

Asynchronous JavaScript is modelled by explicit state passing plus event
lists: each handler returns its successor state together with the ordered
list of externally visible effects it performs; timers are single-slot
pending flags fired by explicit events.
-/

deriving instance DecidableEq for Except

namespace IRIS

/-- `String.prototype.startsWith` on character lists. -/
def listStartsWith : List Char → List Char → Bool
  | [], _ => true
  | _ :: _, [] => false
  | a :: as, b :: bs => a == b && listStartsWith as bs

/-- Contiguous-substring occurrence on character lists. -/
def listHasSub (needle : List Char) : List Char → Bool
  | [] => listStartsWith needle []
  | c :: cs => listStartsWith needle (c :: cs) || listHasSub needle cs

/-- JS `hay.includes(needle)`: `needle` occurs contiguously inside `hay`. -/
def strIncludes (hay needle : String) : Bool :=
  listHasSub needle.data hay.data

/-- JS `String.prototype.trim`, modelled on the character list: surrounding
whitespace (per `Char.isWhitespace`) is removed. -/
def jsTrim (s : String) : String :=
  ⟨((s.data.dropWhile Char.isWhitespace).reverse.dropWhile Char.isWhitespace).reverse⟩

/-- JS `String.prototype.toLowerCase`, modelled characterwise. -/
def jsToLower (s : String) : String :=
  ⟨s.data.map Char.toLower⟩

/-- `types.ts` `AppState` as used throughout `App.tsx`. -/
inductive AppState where
  | IDLE
  | INTERPRETING_COMMAND
  | ANALYZING
  | AWAITING_FOLLOWUP
  | SAVING_ITEM_LISTEN
  | FINDING_ITEM
  | LIVE_COMMENTARY
  | MANAGING_ITEMS
  deriving DecidableEq, Repr

/-- `App.tsx` lines 211-217: the busy-state list. -/
def isBusy (s : AppState) : Bool :=
  [AppState.ANALYZING, AppState.SAVING_ITEM_LISTEN, AppState.FINDING_ITEM,
   AppState.INTERPRETING_COMMAND, AppState.LIVE_COMMENTARY].contains s

/-- `App.tsx` line 250: the fixed interrupt vocabulary. -/
def stopWords : List String :=
  ["stop", "cancel", "be quiet", "enough", "that\x27s enough"]

/-- `App.tsx` line 251: `stopWords.some(word => transcript.toLowerCase().includes(word))`. -/
def hasStopWord (transcript : String) : Bool :=
  stopWords.any (fun w => strIncludes (jsToLower transcript) w)

/-!  ## Recognition Lifecycle Manager (`hooks/useVoiceCommands.ts`)  -/

/-- The mutable refs and observable call counts of one recognition session.
`mobile` is `isMobileRef.current`, fixed at creation (SINGLE_SHOT model when
true).  `startCalls` / `stopCalls` count invocations of the platform engine's
`start()` / `stop()`.  The three `...Pending` fields model the single-slot
restart timer (`restartTimerRef`) and the anonymous timers scheduled by
`resumeAfterProcessing` and `resumeListening`. -/
structure RLMState where
  isListening : Bool
  isStoppedManually : Bool
  isPaused : Bool
  isProcessingTranscript : Bool
  restartTimerPending : Bool
  resumeTimerPending : Bool
  resumeListenTimerPending : Bool
  startCalls : Nat
  stopCalls : Nat
  mobile : Bool
  deriving DecidableEq, Repr

/-- Ordered actions taken inside the `onresult` handler. -/
inductive RLMAct where
  | setAwaitFlag
  | engineStopCall
  | emitTranscript (text : String) (isFinal : Bool)
  deriving DecidableEq, Repr

/-- `recognition.onresult` (lines 165-191): trims and lowercases the raw
engine transcript; on a non-empty final result under the mobile (SINGLE_SHOT)
model it first sets `isProcessingTranscript`, then stops the engine, then
emits; non-empty interim results are emitted as-is; results whose trimmed
text is empty are dropped entirely. -/
def onresult (st : RLMState) (raw : String) (isFinal : Bool) :
    RLMState × List RLMAct :=
  let transcript := jsToLower (jsTrim raw)
  if isFinal && transcript != "" then
    if st.mobile then
      ({ st with isProcessingTranscript := true, stopCalls := st.stopCalls + 1 },
       [RLMAct.setAwaitFlag, RLMAct.engineStopCall,
        RLMAct.emitTranscript transcript true])
    else
      (st, [RLMAct.emitTranscript transcript true])
  else if !isFinal && transcript != "" then
    (st, [RLMAct.emitTranscript transcript false])
  else
    (st, [])

/-- `recognition.onend` (lines 103-136): marks the engine stopped, clears any
pending restart timer, and schedules a restart only when none of
manual-stop / paused / processing-transcript is set. -/
def onend (st : RLMState) : RLMState :=
  let st := { st with isListening := false, restartTimerPending := false }
  if !st.isStoppedManually && !st.isPaused && !st.isProcessingTranscript then
    { st with restartTimerPending := true }
  else
    st

/-- The restart timer callback (lines 120-134): double-checks the same three
flags before calling `start()`. -/
def restartTimerFire (st : RLMState) : RLMState :=
  if st.restartTimerPending then
    let st := { st with restartTimerPending := false }
    if !st.isStoppedManually && !st.isPaused && !st.isProcessingTranscript then
      { st with startCalls := st.startCalls + 1 }
    else st
  else st

/-- `resumeAfterProcessing` (lines 345-363): clears the processing flag and,
on mobile when neither manually stopped nor paused, schedules an engine
start. -/
def resumeAfterProcessing (st : RLMState) : RLMState :=
  let st := { st with isProcessingTranscript := false }
  if st.mobile && !st.isStoppedManually && !st.isPaused then
    { st with resumeTimerPending := true }
  else st

/-- The timer scheduled by `resumeAfterProcessing`: calls `start()`
unconditionally (errors are swallowed). -/
def resumeTimerFire (st : RLMState) : RLMState :=
  if st.resumeTimerPending then
    { st with resumeTimerPending := false, startCalls := st.startCalls + 1 }
  else st

/-- `stopListening` (lines 281-290): cancels the restart timer, sets the
manual-stop flag, clears the pause flag and stops the engine. -/
def stopListening (st : RLMState) : RLMState :=
  { st with restartTimerPending := false, isStoppedManually := true,
            isPaused := false, stopCalls := st.stopCalls + 1 }

/-- `resumeListening` (lines 319-336): when the engine is not currently
listening, clears the pause flag and schedules an engine start after a short
settle delay.  It never consults `isStoppedManually`. -/
def resumeListening (st : RLMState) : RLMState :=
  if !st.isListening then
    { st with isPaused := false, resumeListenTimerPending := true }
  else st

/-- The timer scheduled by `resumeListening`: calls `start()` unconditionally
(errors are swallowed). -/
def resumeListenTimerFire (st : RLMState) : RLMState :=
  if st.resumeListenTimerPending then
    { st with resumeListenTimerPending := false, startCalls := st.startCalls + 1 }
  else st

/-- `pauseListening` (lines 312-317). -/
def pauseListening (st : RLMState) : RLMState :=
  if st.isListening then
    { st with isPaused := true, stopCalls := st.stopCalls + 1 }
  else st

/-- Engine-driven events that may occur between a final transcript and the
explicit resume signal: the platform's end-of-session callback and the firing
of a previously scheduled restart timer. -/
inductive RLMEvent where
  | endOfSession
  | restartFire
  deriving DecidableEq, Repr

def rlmStep (st : RLMState) : RLMEvent → RLMState
  | RLMEvent.endOfSession => onend st
  | RLMEvent.restartFire => restartTimerFire st

def rlmRun (st : RLMState) (evs : List RLMEvent) : RLMState :=
  evs.foldl rlmStep st

/-!  ## Command Coordinator (`App.tsx`)  -/

/-- `components/Controls.tsx` `ActionType`, as dispatched in `App.tsx`. -/
inductive ActionType where
  | DESCRIBE_SCENE
  | READ_TEXT
  | IDENTIFY_PEOPLE
  | CHECK_HAZARDS
  | ANALYZE_TERRAIN
  | SAVE_ITEM
  | LIVE_COMMENTARY
  | FIND_ITEM
  | MANAGE_ITEMS
  | HELP
  | ASK_QUESTION
  | ASK_GEMINI
  | DELETE_ITEM
  | CLOSE_MANAGEMENT
  | STOP
  | UNKNOWN
  deriving DecidableEq, Repr

/-- The optional payload attached to an interpreted action. -/
structure Payload where
  itemName : Option String
  query : Option String
  deriving DecidableEq, Repr

/-- The Coordinator-owned state of `App.tsx`: the busy state, the two
polling-loop flags (`isLive` is the React-state mirror of the
`isLiveActive` ref), the follow-up context, the saved items and the two
stable configuration bits read by handlers. -/
structure CCState where
  appState : AppState
  isLive : Bool
  isLiveActive : Bool
  isFindingActive : Bool
  lastAnalyzedImage : Option String
  personalItems : List String
  isCameraReady : Bool
  isVoiceCommandActive : Bool
  deriving DecidableEq, Repr

/-- Externally visible effects performed by the Coordinator, in program
order.  `resumeSignal` is the RLM's `resumeAfterProcessing`;
`pauseListenCall` / `resumeListenCall` are `pauseListening` /
`resumeListening`; `liveFlagWrite` / `findFlagWrite` record writes to the
two loop-active refs. -/
inductive Effect where
  | cancelSpeech
  | speak (msg : String)
  | setApp (s : AppState)
  | resumeSignal
  | interpretCall (transcript : String)
  | analysisCall
  | listenCall
  | liveFlagWrite (b : Bool)
  | findFlagWrite (b : Bool)
  | pauseListenCall
  | resumeListenCall
  deriving DecidableEq, Repr

/-- Oracle for the external collaborators awaited during one command:
the command-interpretation result, the captured frame, the analysis
collaborator's result and the speech-to-text (`listenForInput`) result.
An `Except.error` value models the corresponding promise rejecting. -/
structure CmdEnv where
  interpretResult : Except String (ActionType × Payload)
  captureResult : Option String
  apiResult : Except String String
  listenResult : Except String String
  deriving DecidableEq, Repr

/-- `stopLiveCommentary` (lines 63-71): when the commentary loop is active,
clears its ref and mirror, resets the busy state to IDLE and cancels
speech. -/
def stopLiveCommentary (st : CCState) : CCState × List Effect :=
  if st.isLiveActive then
    ({ st with isLiveActive := false, isLive := false, appState := AppState.IDLE },
     [Effect.liveFlagWrite false, Effect.setApp AppState.IDLE, Effect.cancelSpeech])
  else (st, [])

/-- `stopObjectFinder` (lines 73-81). -/
def stopObjectFinder (st : CCState) : CCState × List Effect :=
  if st.isFindingActive then
    ({ st with isFindingActive := false, appState := AppState.IDLE },
     [Effect.findFlagWrite false, Effect.setApp AppState.IDLE, Effect.cancelSpeech])
  else (st, [])

/-- Synchronous prefix of `runLiveCommentary` (lines 426-435): the guard, the
flag/state writes and the start announcement.  The iterations of the loop
itself are modelled separately by `liveIteration`. -/
def runLiveCommentary (st : CCState) : CCState × List Effect :=
  if st.isLiveActive then (st, [])
  else
    ({ st with isLiveActive := true, isLive := true,
               appState := AppState.LIVE_COMMENTARY },
     [Effect.liveFlagWrite true, Effect.setApp AppState.LIVE_COMMENTARY,
      Effect.speak "Starting live commentary. Say \x27stop\x27 to exit."])

/-- Synchronous prefix of `runObjectFinder` (lines 461-469); iterations are
modelled by `finderIteration`. -/
def runObjectFinder (itemName : String) (st : CCState) : CCState × List Effect :=
  if st.isFindingActive then (st, [])
  else
    ({ st with isFindingActive := true, appState := AppState.FINDING_ITEM },
     [Effect.findFlagWrite true, Effect.setApp AppState.FINDING_ITEM,
      Effect.speak ("Looking for " ++ itemName ++
        ". Pan your camera around. Say \x27stop\x27 to exit.")])

/-- `processAction` (lines 354-389).  `renderApp` is the render-time
`appState` captured by the handler's closure (the callbacks dispatched for a
transcript were created before the Coordinator wrote
`INTERPRETING_COMMAND`). -/
def processAction (env : CmdEnv) (renderApp : AppState) (allowFollowUp : Bool)
    (st : CCState) : CCState × List Effect :=
  if renderApp == AppState.ANALYZING || !st.isCameraReady then (st, [])
  else
    let effs := [Effect.cancelSpeech, Effect.setApp AppState.ANALYZING]
    let st := { st with appState := AppState.ANALYZING }
    match env.captureResult with
    | none =>
        ({ st with appState := AppState.IDLE }, effs ++ [Effect.setApp AppState.IDLE])
    | some img =>
        match env.apiResult with
        | Except.ok text =>
            if allowFollowUp then
              ({ st with appState := AppState.AWAITING_FOLLOWUP,
                         lastAnalyzedImage := some img },
               effs ++ [Effect.analysisCall, Effect.speak text,
                        Effect.setApp AppState.AWAITING_FOLLOWUP])
            else
              ({ st with appState := AppState.IDLE },
               effs ++ [Effect.analysisCall, Effect.speak text,
                        Effect.setApp AppState.IDLE])
        | Except.error e =>
            ({ st with appState := AppState.IDLE },
             effs ++ [Effect.analysisCall, Effect.speak ("Error: " ++ e),
                      Effect.setApp AppState.IDLE])

/-- `processTerrainAction` (lines 326-352): structurally identical to
`processAction` with no follow-up (only its status strings differ, which are
not modelled). -/
def processTerrainAction (env : CmdEnv) (renderApp : AppState) (st : CCState) :
    CCState × List Effect :=
  processAction env renderApp false st

/-- `handleSaveItem` (lines 112-138): prompt, listen for a name, capture and
save; the `finally` always resets the busy state to IDLE and resumes
listening when voice commands are active.  `personalDB.saveItem` is modelled
as appending the item's name. -/
def handleSaveItem (env : CmdEnv) (st : CCState) : CCState × List Effect :=
  let effs := [Effect.pauseListenCall, Effect.setApp AppState.SAVING_ITEM_LISTEN,
               Effect.cancelSpeech, Effect.speak "What should I call this item?",
               Effect.listenCall]
  let st := { st with appState := AppState.SAVING_ITEM_LISTEN }
  let body : CCState × List Effect :=
    match env.listenResult with
    | Except.ok name =>
        let st := { st with appState := AppState.ANALYZING }
        match env.captureResult with
        | none =>
            (st, effs ++ [Effect.setApp AppState.ANALYZING,
                          Effect.speak "Sorry, I couldn\x27t save that."])
        | some _ =>
            ({ st with personalItems := st.personalItems ++ [name] },
             effs ++ [Effect.setApp AppState.ANALYZING,
                      Effect.speak ("Okay, I\x27ve saved this as " ++ name ++ ".")])
    | Except.error _ =>
        (st, effs ++ [Effect.speak "Sorry, I couldn\x27t save that."])
  let st := { body.1 with appState := AppState.IDLE }
  let effs := body.2 ++ [Effect.setApp AppState.IDLE]
  if st.isVoiceCommandActive then (st, effs ++ [Effect.resumeListenCall])
  else (st, effs)

/-- The body of `handleAskGemini` (lines 231-243) once a query is in hand:
think, speak the response or the error, and always return to IDLE. -/
def askGeminiCore (env : CmdEnv) (st : CCState) (effs : List Effect) :
    CCState × List Effect :=
  let effs := effs ++ [Effect.setApp AppState.ANALYZING, Effect.analysisCall]
  let spoken :=
    match env.apiResult with
    | Except.ok response => Effect.speak response
    | Except.error e => Effect.speak ("Error: " ++ e)
  ({ st with appState := AppState.IDLE },
   effs ++ [spoken, Effect.setApp AppState.IDLE])

/-- `handleAskGemini` (lines 219-244): with no query it first asks and
listens; a listening failure returns without touching the busy state. -/
def handleAskGemini (env : CmdEnv) (query : Option String) (st : CCState) :
    CCState × List Effect :=
  match query with
  | none =>
      (match env.listenResult with
       | Except.error _ =>
           (st, [Effect.speak "What is your question?", Effect.listenCall,
                 Effect.speak "Sorry, I didn\x27t catch that."])
       | Except.ok _ =>
           askGeminiCore env st
             [Effect.speak "What is your question?", Effect.listenCall])
  | some _ => askGeminiCore env st []

/-- `handleFollowUpQuestion` (lines 391-424).  The entry guard reads the
render-time `appState` closure. -/
def handleFollowUpQuestion (env : CmdEnv) (renderApp : AppState)
    (st : CCState) : CCState × List Effect :=
  if renderApp != AppState.AWAITING_FOLLOWUP && renderApp != AppState.IDLE then
    (st, [])
  else
    match st.lastAnalyzedImage with
    | none => (st, [Effect.speak "Please describe a scene first before asking a question."])
    | some _ =>
        let effs := [Effect.pauseListenCall, Effect.cancelSpeech,
                     Effect.speak "What\x27s your question?", Effect.listenCall]
        let tail := if st.isVoiceCommandActive then [Effect.resumeListenCall] else []
        match env.listenResult with
        | Except.ok _ =>
            let effs := effs ++ [Effect.setApp AppState.ANALYZING, Effect.analysisCall]
            match env.apiResult with
            | Except.ok text =>
                ({ st with appState := AppState.AWAITING_FOLLOWUP },
                 effs ++ [Effect.speak text,
                          Effect.setApp AppState.AWAITING_FOLLOWUP] ++ tail)
            | Except.error _ =>
                ({ st with appState := AppState.AWAITING_FOLLOWUP },
                 effs ++ [Effect.speak "Sorry, I couldn\x27t get that. Please try again.",
                          Effect.setApp AppState.AWAITING_FOLLOWUP] ++ tail)
        | Except.error _ =>
            ({ st with appState := AppState.AWAITING_FOLLOWUP },
             effs ++ [Effect.speak "Sorry, I couldn\x27t get that. Please try again.",
                      Effect.setApp AppState.AWAITING_FOLLOWUP] ++ tail)

/-- `handleDeleteItem` (lines 488-494); `personalDB.deleteItem` is modelled
as removal by name. -/
def handleDeleteItem (name : String) (st : CCState) : CCState × List Effect :=
  ({ st with personalItems := st.personalItems.filter (fun n => n != name) },
   [Effect.speak ("Okay, I\x27ve deleted " ++ name ++ ".")])

/-- The MANAGE_ITEMS announcement (lines 166-173). -/
def manageItemsMessage (items : List String) : String :=
  if items.length > 0 then
    "Here are your saved items: " ++ String.intercalate ", " items ++
      ". You can say \x27delete\x27 followed by the name."
  else "You have no saved items."

/-- `getHelp()` lives in the excluded `geminiService` collaborator; its text
is opaque to the core. -/
def helpText : String := "HELP_TEXT"

/-- The `actionMap` dispatch inside `handleAction` (lines 150-204).
`renderApp` / `renderLive` are the render-time `appState` / `isLive`
closure values. -/
def dispatchAction (env : CmdEnv) (renderApp : AppState) (renderLive : Bool)
    (action : ActionType) (payload : Payload) (st : CCState) :
    CCState × List Effect :=
  match action with
  | ActionType.DESCRIBE_SCENE => processAction env renderApp true st
  | ActionType.READ_TEXT => processAction env renderApp false st
  | ActionType.IDENTIFY_PEOPLE => processAction env renderApp true st
  | ActionType.CHECK_HAZARDS => processAction env renderApp false st
  | ActionType.ANALYZE_TERRAIN => processTerrainAction env renderApp st
  | ActionType.SAVE_ITEM => handleSaveItem env st
  | ActionType.LIVE_COMMENTARY =>
      if renderLive then stopLiveCommentary st else runLiveCommentary st
  | ActionType.FIND_ITEM =>
      (match payload.itemName with
       | some n => if n != "" then runObjectFinder n st else (st, [])
       | none => (st, []))
  | ActionType.MANAGE_ITEMS =>
      ({ st with appState := AppState.MANAGING_ITEMS },
       [Effect.setApp AppState.MANAGING_ITEMS,
        Effect.speak (manageItemsMessage st.personalItems)])
  | ActionType.HELP => (st, [Effect.speak helpText])
  | ActionType.ASK_QUESTION => handleFollowUpQuestion env renderApp st
  | ActionType.ASK_GEMINI => handleAskGemini env payload.query st
  | ActionType.DELETE_ITEM =>
      if renderApp == AppState.MANAGING_ITEMS then
        (match payload.itemName with
         | some n => handleDeleteItem n st
         | none => (st, []))
      else (st, [])
  | ActionType.CLOSE_MANAGEMENT =>
      if renderApp == AppState.MANAGING_ITEMS then
        ({ st with appState := AppState.IDLE },
         [Effect.setApp AppState.IDLE, Effect.cancelSpeech])
      else (st, [])
  | ActionType.STOP => (st, [])
  | ActionType.UNKNOWN => (st, [])

/-- `handleAction` (lines 141-209): first stops whichever loop is active
(commentary via the render-time `isLive`, finder via its ref), clears the
follow-up context for non-question actions, then dispatches. -/
def handleAction (env : CmdEnv) (renderApp : AppState) (renderLive : Bool)
    (action : ActionType) (payload : Payload) (st : CCState) :
    CCState × List Effect :=
  let r1 := if renderLive then stopLiveCommentary st else (st, [])
  let r2 := if r1.1.isFindingActive then stopObjectFinder r1.1 else (r1.1, [])
  let st2 :=
    if action != ActionType.ASK_QUESTION then
      { r2.1 with lastAnalyzedImage := none }
    else r2.1
  let r3 := dispatchAction env renderApp renderLive action payload st2
  (r3.1, r1.2 ++ r2.2 ++ r3.2)

/-- The functional state update of `handleVoiceCommand`'s `finally` block
(lines 298-303). -/
def cmdFinallyApp (pre mid : AppState) : AppState :=
  if mid == AppState.INTERPRETING_COMMAND || mid == AppState.ANALYZING then
    (if pre == AppState.MANAGING_ITEMS then AppState.MANAGING_ITEMS else AppState.IDLE)
  else mid

/-- The `try`/`catch` body of `handleVoiceCommand`'s command path
(lines 275-296): await interpretation, reroute UNKNOWN to the open-query
collaborator, ignore STOP (already handled pre-emptively), otherwise
dispatch; an interpretation failure is caught with a spoken apology. -/
def cmdBody (env : CmdEnv) (transcript : String) (pre : AppState)
    (renderLive : Bool) (st1 : CCState) : CCState × List Effect :=
  match env.interpretResult with
  | Except.error e => (st1, [Effect.speak ("Sorry, " ++ e)])
  | Except.ok (action, payload) =>
      if action == ActionType.UNKNOWN then
        handleAskGemini env (some transcript) st1
      else if action == ActionType.STOP then
        (st1, [])
      else
        handleAction env pre renderLive action payload st1

/-- `handleVoiceCommand` (lines 246-309): interrupt precedence, busy gating,
interpretation, dispatch, and the guaranteed `finally` cleanup. -/
def handleVoiceCommand (env : CmdEnv) (transcript : String) (isFinal : Bool)
    (st : CCState) : CCState × List Effect :=
  if hasStopWord transcript then
    let r1 := stopLiveCommentary st
    let r2 := stopObjectFinder r1.1
    ({ r2.1 with appState := AppState.IDLE },
     [Effect.cancelSpeech] ++ r1.2 ++ r2.2 ++
       [Effect.setApp AppState.IDLE, Effect.speak "Okay, stopped.",
        Effect.resumeSignal])
  else if isBusy st.appState || !isFinal then
    (st, [])
  else
    let body := cmdBody env transcript st.appState st.isLive
      { st with appState := AppState.INTERPRETING_COMMAND }
    let newApp := cmdFinallyApp st.appState body.1.appState
    ({ body.1 with appState := newApp },
     [Effect.setApp AppState.INTERPRETING_COMMAND, Effect.interpretCall transcript]
       ++ body.2 ++ [Effect.setApp newApp, Effect.resumeSignal])

/-!  ## Polling Loop Engines: per-iteration semantics  -/

/-- Observable events inside one polling-loop iteration.  `flagRead` records
each read of the loop's active ref together with the value read;
`analysisCall` and `interFrameDelay` are the iteration's asynchronous
suspension points (`await`ed calls). -/
inductive LoopEvent where
  | flagRead (value : Bool)
  | captureCall
  | analysisCall
  | speakResult (msg : String)
  | interFrameDelay (ms : Nat)
  deriving DecidableEq, Repr

/-- How one loop iteration relinquishes control. -/
inductive IterOutcome where
  | exitLoop
  | breakLoop
  | continueLoop
  | errored (msg : String)
  deriving DecidableEq, Repr

def isFlagRead : LoopEvent → Bool
  | LoopEvent.flagRead _ => true
  | _ => false

/-- An event at which the single-threaded loop suspends and other code
(such as a stop request) can run. -/
def isSuspension : LoopEvent → Bool
  | LoopEvent.analysisCall => true
  | LoopEvent.interFrameDelay _ => true
  | _ => false

/-- The world one commentary-loop iteration runs against: the value of
`isLiveActive.current` at each point it is read, the captured frame, and the
analysis collaborator's result. -/
structure LiveWorld where
  flagBeforeCapture : Bool
  captureResult : Option String
  flagAfterCapture : Bool
  analysisResult : Except String String
  flagAfterAnalysis : Bool
  deriving DecidableEq, Repr

/-- One iteration of `runLiveCommentary`'s `while` loop (lines 437-458):
check flag, capture, re-check flag, analyse inside `try`/`catch` (errors are
swallowed), speak only if the flag is still set and the description
non-empty, then the fixed 2000 ms inter-frame delay. -/
def liveIteration (w : LiveWorld) : IterOutcome × List LoopEvent :=
  if !w.flagBeforeCapture then (IterOutcome.exitLoop, [LoopEvent.flagRead false])
  else
    let evs := [LoopEvent.flagRead true, LoopEvent.captureCall]
    if !w.flagAfterCapture then
      (IterOutcome.breakLoop, evs ++ [LoopEvent.flagRead false])
    else
      let evs := evs ++ [LoopEvent.flagRead true]
      match w.captureResult with
      | none => (IterOutcome.continueLoop, evs ++ [LoopEvent.interFrameDelay 2000])
      | some _ =>
          let evs := evs ++ [LoopEvent.analysisCall]
          match w.analysisResult with
          | Except.error _ =>
              (IterOutcome.continueLoop, evs ++ [LoopEvent.interFrameDelay 2000])
          | Except.ok description =>
              let evs := evs ++ [LoopEvent.flagRead w.flagAfterAnalysis]
              let evs :=
                if w.flagAfterAnalysis && description != "" then
                  evs ++ [LoopEvent.speakResult description]
                else evs
              (IterOutcome.continueLoop, evs ++ [LoopEvent.interFrameDelay 2000])

/-- The world one object-search iteration runs against. -/
structure FinderWorld where
  flagBeforeCapture : Bool
  captureResult : Option String
  analysisResult : Except String String
  flagAfterAnalysis : Bool
  deriving DecidableEq, Repr

/-- One iteration of `runObjectFinder`'s `while` loop (lines 471-485):
check flag, capture (`continue` immediately on a null frame, with no delay),
`await findObject` with no surrounding `try`/`catch` (a rejection escapes
the loop), re-check flag, then speak plus a 3000 ms pause on a sighting or
nothing on a miss, then the fixed 500 ms delay. -/
def finderIteration (w : FinderWorld) : IterOutcome × List LoopEvent :=
  if !w.flagBeforeCapture then (IterOutcome.exitLoop, [LoopEvent.flagRead false])
  else
    let evs := [LoopEvent.flagRead true, LoopEvent.captureCall]
    match w.captureResult with
    | none => (IterOutcome.continueLoop, evs)
    | some _ =>
        let evs := evs ++ [LoopEvent.analysisCall]
        match w.analysisResult with
        | Except.error e => (IterOutcome.errored e, evs)
        | Except.ok responseText =>
            if !w.flagAfterAnalysis then
              (IterOutcome.breakLoop, evs ++ [LoopEvent.flagRead false])
            else
              let evs := evs ++ [LoopEvent.flagRead true]
              if responseText != "I don\x27t see it here." then
                (IterOutcome.continueLoop,
                 evs ++ [LoopEvent.speakResult responseText,
                         LoopEvent.interFrameDelay 3000, LoopEvent.interFrameDelay 500])
              else
                (IterOutcome.continueLoop, evs ++ [LoopEvent.interFrameDelay 500])

/-- Runs successive object-search iterations against a list of per-iteration
worlds, stopping as soon as an iteration does not continue. -/
def finderRun : List FinderWorld → IterOutcome × List LoopEvent
  | [] => (IterOutcome.continueLoop, [])
  | w :: ws =>
      let r := finderIteration w
      match r.1 with
      | IterOutcome.continueLoop =>
          let r2 := finderRun ws
          (r2.1, r.2 ++ r2.2)
      | o => (o, r.2)

/-- The pair of loop-active flags along an effect list (for the at-most-one
-loop invariant): `liveFlagWrite` / `findFlagWrite` update the pair, all
other effects leave it unchanged. -/
def flagsAfter (p : Bool × Bool) : Effect → Bool × Bool
  | Effect.liveFlagWrite b => (b, p.2)
  | Effect.findFlagWrite b => (p.1, b)
  | _ => p

/-- At most one of the two loop-active flags is set. -/
def atMostOne (p : Bool × Bool) : Bool := !(p.1 && p.2)

/-- `atMostOne` holds of the `(isLiveActive, isFindingActive)` pair at every
instant while an effect list executes from `p` — before the first effect,
between any two effects, and after the last. -/
def flagStatesOK (p : Bool × Bool) : List Effect → Bool
  | [] => atMostOne p
  | e :: es => atMostOne p && flagStatesOK (flagsAfter p e) es

/-- An effect that neither writes a loop-active flag nor signals
`resumeAfterProcessing` (every effect of the non-loop action handlers). -/
def tameEffect : Effect → Bool
  | Effect.liveFlagWrite _ => false
  | Effect.findFlagWrite _ => false
  | Effect.resumeSignal => false
  | _ => true

/-!  ## Theorems  -/

/-- While the processing-transcript flag is set, engine end-of-session
callbacks and restart-timer firings never call `start()` and leave the
session flags untouched. -/
theorem rlmRun_processing_invariant (evs : List RLMEvent) (st : RLMState)
    (h : st.isProcessingTranscript = true) :
    (rlmRun st evs).isProcessingTranscript = true ∧
    (rlmRun st evs).startCalls = st.startCalls ∧
    (rlmRun st evs).isStoppedManually = st.isStoppedManually ∧
    (rlmRun st evs).isPaused = st.isPaused ∧
    (rlmRun st evs).resumeTimerPending = st.resumeTimerPending ∧
    (rlmRun st evs).mobile = st.mobile := by
  induction evs generalizing st with
  | nil => simp [rlmRun, h]
  | cons e evs ih =>
    have hstep : (rlmStep st e).isProcessingTranscript = true ∧
        (rlmStep st e).startCalls = st.startCalls ∧
        (rlmStep st e).isStoppedManually = st.isStoppedManually ∧
        (rlmStep st e).isPaused = st.isPaused ∧
        (rlmStep st e).resumeTimerPending = st.resumeTimerPending ∧
        (rlmStep st e).mobile = st.mobile := by
      cases e with
      | endOfSession => simp [rlmStep, onend, h]
      | restartFire =>
        by_cases hp : st.restartTimerPending <;>
          simp [rlmStep, restartTimerFire, h, hp]
    have hrun : rlmRun st (e :: evs) = rlmRun (rlmStep st e) evs := by
      simp [rlmRun, List.foldl]
    rw [hrun]
    have hr := ih (rlmStep st e) hstep.1
    exact ⟨hr.1,
      hr.2.1.trans hstep.2.1,
      hr.2.2.1.trans hstep.2.2.1,
      hr.2.2.2.1.trans hstep.2.2.2.1,
      hr.2.2.2.2.1.trans hstep.2.2.2.2.1,
      hr.2.2.2.2.2.trans hstep.2.2.2.2.2⟩

/-- C1: under the SINGLE_SHOT (mobile) listening model, a non-empty final
transcript makes `onresult` set the awaiting-command-completion flag and stop
the engine, in that order, before emitting the transcript; across any
interleaving of end-of-session callbacks and restart-timer firings the engine
is never started before `resumeAfterProcessing` is signalled; and after the
resume signal the engine is started exactly once. -/
theorem single_shot_no_restart_until_resume
    (st : RLMState) (raw : String) (mid : List RLMEvent)
    (hm : st.mobile = true) (hs : st.isStoppedManually = false)
    (hp : st.isPaused = false) (h0 : st.startCalls = 0)
    (hr : st.resumeTimerPending = false) (ht : jsToLower (jsTrim raw) ≠ "") :
    (onresult st raw true).2
      = [RLMAct.setAwaitFlag, RLMAct.engineStopCall,
         RLMAct.emitTranscript (jsToLower (jsTrim raw)) true] ∧
    (rlmRun (onresult st raw true).1 mid).startCalls = 0 ∧
    (resumeAfterProcessing (rlmRun (onresult st raw true).1 mid)).startCalls = 0 ∧
    (resumeTimerFire (resumeAfterProcessing
        (rlmRun (onresult st raw true).1 mid))).startCalls = 1 := by
  have hone : onresult st raw true =
      ({ st with isProcessingTranscript := true, stopCalls := st.stopCalls + 1 },
       [RLMAct.setAwaitFlag, RLMAct.engineStopCall,
        RLMAct.emitTranscript (jsToLower (jsTrim raw)) true]) := by
    simp [onresult, hm, ht]
  have h1 : (onresult st raw true).1
      = { st with isProcessingTranscript := true, stopCalls := st.stopCalls + 1 } := by
    rw [hone]
  have hinv := rlmRun_processing_invariant mid (onresult st raw true).1 (by rw [h1])
  obtain ⟨hP, hS, hM, hPa, hR, hMo⟩ := hinv
  have hS0 : (rlmRun (onresult st raw true).1 mid).startCalls = 0 := by
    rw [hS, h1]; exact h0
  have hM0 : (rlmRun (onresult st raw true).1 mid).isStoppedManually = false := by
    rw [hM, h1]; exact hs
  have hPa0 : (rlmRun (onresult st raw true).1 mid).isPaused = false := by
    rw [hPa, h1]; exact hp
  have hR0 : (rlmRun (onresult st raw true).1 mid).resumeTimerPending = false := by
    rw [hR, h1]; exact hr
  have hMo0 : (rlmRun (onresult st raw true).1 mid).mobile = true := by
    rw [hMo, h1]; exact hm
  have hra : resumeAfterProcessing (rlmRun (onresult st raw true).1 mid)
      = { rlmRun (onresult st raw true).1 mid with
            isProcessingTranscript := false, resumeTimerPending := true } := by
    simp [resumeAfterProcessing, hMo0, hM0, hPa0]
  refine ⟨by rw [hone], hS0, ?_, ?_⟩
  · rw [hra]; exact hS0
  · rw [hra]; simp [resumeTimerFire, hS0]

/-- A session in the quiescent listening state of the SINGLE_SHOT model. -/
def rlmIdle : RLMState := RLMState.mk true false false false false false false 0 0 true

/-- Witness for C1 at a concrete session and transcript. -/
theorem single_shot_no_restart_until_resume_witness :
    (onresult rlmIdle "Describe the scene" true).2
      = [RLMAct.setAwaitFlag, RLMAct.engineStopCall,
         RLMAct.emitTranscript (jsToLower (jsTrim "Describe the scene")) true] ∧
    (rlmRun (onresult rlmIdle "Describe the scene" true).1
        [RLMEvent.endOfSession, RLMEvent.restartFire]).startCalls = 0 ∧
    (resumeAfterProcessing (rlmRun (onresult rlmIdle "Describe the scene" true).1
        [RLMEvent.endOfSession, RLMEvent.restartFire])).startCalls = 0 ∧
    (resumeTimerFire (resumeAfterProcessing
        (rlmRun (onresult rlmIdle "Describe the scene" true).1
          [RLMEvent.endOfSession, RLMEvent.restartFire]))).startCalls = 1 :=
  single_shot_no_restart_until_resume rlmIdle "Describe the scene"
    [RLMEvent.endOfSession, RLMEvent.restartFire] rfl rfl rfl rfl rfl (by decide)

/-- C8 counterexample: with the manual-stop flag set and the engine not
listening, `resumeListening` still schedules and performs an engine start —
the claim that resume never starts the engine while manually stopped fails. -/
theorem resumeListening_manual_stop_counterexample :
    (RLMState.mk false true false false false false false 0 0 true).isStoppedManually
        = true ∧
    (resumeListenTimerFire (resumeListening
        (RLMState.mk false true false false false false false 0 0 true))).startCalls
        = 1 := by
  decide

/-- C8 amended: `resumeListening` is a no-op when the engine is currently
listening; otherwise it clears the pause flag and schedules an engine start
regardless of the manual-stop flag (the manual-stop guard lives in the
auto-restart and resume-after-processing paths, not in `resumeListening`). -/
theorem resumeListening_ignores_manual_stop (st : RLMState) :
    (st.isListening = true → resumeListening st = st) ∧
    (st.isListening = false →
      (resumeListening st).isPaused = false ∧
      (resumeListenTimerFire (resumeListening st)).startCalls
        = st.startCalls + 1) := by
  constructor
  · intro h; simp [resumeListening, h]
  · intro h; simp [resumeListening, resumeListenTimerFire, h]

/-- Witness for the amended C8 at a concrete non-listening session. -/
theorem resumeListening_ignores_manual_stop_witness :
    (resumeListening (RLMState.mk false false true false false false false 2 0 false)).isPaused
        = false ∧
    (resumeListenTimerFire (resumeListening
        (RLMState.mk false false true false false false false 2 0 false))).startCalls
        = (RLMState.mk false false true false false false false 2 0 false).startCalls + 1 :=
  (resumeListening_ignores_manual_stop
    (RLMState.mk false false true false false false false 2 0 false)).2 rfl

/-- C9: every transcript `onresult` delivers is the raw engine transcript
trimmed of surrounding whitespace and lowercased; a result whose trimmed text
is empty is never delivered and leaves the session untouched (in particular
an empty final result on mobile neither sets the awaiting flag nor stops the
engine); and the session is only touched by a non-empty final result under
the mobile model. -/
theorem onresult_normalizes_and_drops_empty (st : RLMState) (raw : String)
    (isFinal : Bool) :
    (jsToLower (jsTrim raw) = "" → onresult st raw isFinal = (st, [])) ∧
    (jsToLower (jsTrim raw) ≠ "" →
      (onresult st raw isFinal).2 =
        (if st.mobile && isFinal then
           [RLMAct.setAwaitFlag, RLMAct.engineStopCall,
            RLMAct.emitTranscript (jsToLower (jsTrim raw)) isFinal]
         else [RLMAct.emitTranscript (jsToLower (jsTrim raw)) isFinal])) ∧
    ((st.mobile && isFinal) = false → (onresult st raw isFinal).1 = st) := by
  refine ⟨?_, ?_, ?_⟩
  · intro h; cases isFinal <;> simp [onresult, h]
  · intro h; cases isFinal <;> cases hmob : st.mobile <;> simp [onresult, h, hmob]
  · intro h; cases isFinal <;> cases hmob : st.mobile <;>
      by_cases ht : jsToLower (jsTrim raw) = "" <;>
      simp_all [onresult]

/-- Witness for C9: an all-whitespace final result is dropped without
touching the session, and a concrete mixed-case raw transcript is delivered
trimmed and lowercased. -/
theorem onresult_normalizes_witness :
    onresult rlmIdle "   " true = (rlmIdle, []) ∧
    (onresult rlmIdle " HeLLo " true).2
      = [RLMAct.setAwaitFlag, RLMAct.engineStopCall,
         RLMAct.emitTranscript (jsToLower (jsTrim " HeLLo ")) true] := by
  constructor
  · exact (onresult_normalizes_and_drops_empty rlmIdle "   " true).1 (by decide)
  · have h := (onresult_normalizes_and_drops_empty rlmIdle " HeLLo " true).2.1
      (by decide)
    simpa [rlmIdle] using h

/-- A list of tame effects contains no resume signal. -/
theorem not_resume_of_tame {l : List Effect}
    (h : ∀ e ∈ l, tameEffect e = true) : Effect.resumeSignal ∉ l := by
  intro hm
  have := h _ hm
  simp [tameEffect] at this

/-- `processAction` performs only tame effects and preserves both
loop-active flags. -/
theorem processAction_tame (env : CmdEnv) (renderApp : AppState) (f : Bool)
    (st : CCState) :
    (∀ e ∈ (processAction env renderApp f st).2, tameEffect e = true) ∧
    (processAction env renderApp f st).1.isLiveActive = st.isLiveActive ∧
    (processAction env renderApp f st).1.isFindingActive = st.isFindingActive := by
  by_cases hg : (renderApp == AppState.ANALYZING || !st.isCameraReady) = true
  · simp [processAction, hg, tameEffect]
  · rcases hcap : env.captureResult with _ | img
    · simp [processAction, hg, hcap, tameEffect]
    · rcases hapi : env.apiResult with e | text
      · simp [processAction, hg, hcap, hapi, tameEffect]
      · cases f <;> simp [processAction, hg, hcap, hapi, tameEffect]

/-- `handleSaveItem` performs only tame effects and preserves both
loop-active flags. -/
theorem handleSaveItem_tame (env : CmdEnv) (st : CCState) :
    (∀ e ∈ (handleSaveItem env st).2, tameEffect e = true) ∧
    (handleSaveItem env st).1.isLiveActive = st.isLiveActive ∧
    (handleSaveItem env st).1.isFindingActive = st.isFindingActive := by
  rcases hlis : env.listenResult with e | name
  · cases hv : st.isVoiceCommandActive <;>
      simp [handleSaveItem, hlis, hv, tameEffect]
  · rcases hcap : env.captureResult with _ | img <;>
      cases hv : st.isVoiceCommandActive <;>
      simp [handleSaveItem, hlis, hcap, hv, tameEffect]

/-- `askGeminiCore` performs only tame effects (given a tame prefix) and
preserves both loop-active flags. -/
theorem askGeminiCore_tame (env : CmdEnv) (st : CCState) (effs : List Effect)
    (h : ∀ e ∈ effs, tameEffect e = true) :
    (∀ e ∈ (askGeminiCore env st effs).2, tameEffect e = true) ∧
    (askGeminiCore env st effs).1.isLiveActive = st.isLiveActive ∧
    (askGeminiCore env st effs).1.isFindingActive = st.isFindingActive := by
  rcases hapi : env.apiResult with e | r <;>
    refine ⟨?_, by simp [askGeminiCore], by simp [askGeminiCore]⟩ <;>
    · intro x hx
      simp [askGeminiCore, hapi, List.mem_append] at hx
      rcases hx with hx | hx | hx | hx | hx
      · exact h _ hx
      all_goals subst hx; simp [tameEffect]

/-- `handleAskGemini` performs only tame effects and preserves both
loop-active flags. -/
theorem handleAskGemini_tame (env : CmdEnv) (q : Option String) (st : CCState) :
    (∀ e ∈ (handleAskGemini env q st).2, tameEffect e = true) ∧
    (handleAskGemini env q st).1.isLiveActive = st.isLiveActive ∧
    (handleAskGemini env q st).1.isFindingActive = st.isFindingActive := by
  rcases q with _ | q
  · rcases hlis : env.listenResult with e | r
    · simp [handleAskGemini, hlis, tameEffect]
    · have h := askGeminiCore_tame env st
        [Effect.speak "What is your question?", Effect.listenCall]
        (by intro e he; simp at he; rcases he with he | he <;> subst he <;> simp [tameEffect])
      simpa [handleAskGemini, hlis] using h
  · have h := askGeminiCore_tame env st [] (by simp)
    simpa [handleAskGemini] using h

/-- `handleFollowUpQuestion` performs only tame effects and preserves both
loop-active flags. -/
theorem handleFollowUpQuestion_tame (env : CmdEnv) (renderApp : AppState)
    (st : CCState) :
    (∀ e ∈ (handleFollowUpQuestion env renderApp st).2, tameEffect e = true) ∧
    (handleFollowUpQuestion env renderApp st).1.isLiveActive = st.isLiveActive ∧
    (handleFollowUpQuestion env renderApp st).1.isFindingActive = st.isFindingActive := by
  by_cases hg : (renderApp != AppState.AWAITING_FOLLOWUP &&
      renderApp != AppState.IDLE) = true
  · simp [handleFollowUpQuestion, hg, tameEffect]
  · rcases himg : st.lastAnalyzedImage with _ | img
    · simp [handleFollowUpQuestion, hg, himg, tameEffect]
    · rcases hlis : env.listenResult with e | r
      · cases hv : st.isVoiceCommandActive <;>
          simp [handleFollowUpQuestion, hg, himg, hlis, hv, tameEffect]
      · rcases hapi : env.apiResult with e | text <;>
          cases hv : st.isVoiceCommandActive <;>
          simp [handleFollowUpQuestion, hg, himg, hlis, hapi, hv, tameEffect]

/-- `stopLiveCommentary` never signals resume. -/
theorem stopLiveCommentary_no_resume (st : CCState) :
    Effect.resumeSignal ∉ (stopLiveCommentary st).2 := by
  by_cases h : st.isLiveActive <;> simp [stopLiveCommentary, h]

/-- `stopObjectFinder` never signals resume. -/
theorem stopObjectFinder_no_resume (st : CCState) :
    Effect.resumeSignal ∉ (stopObjectFinder st).2 := by
  by_cases h : st.isFindingActive <;> simp [stopObjectFinder, h]

/-- `runLiveCommentary` never signals resume. -/
theorem runLiveCommentary_no_resume (st : CCState) :
    Effect.resumeSignal ∉ (runLiveCommentary st).2 := by
  by_cases h : st.isLiveActive <;> simp [runLiveCommentary, h]

/-- `runObjectFinder` never signals resume. -/
theorem runObjectFinder_no_resume (n : String) (st : CCState) :
    Effect.resumeSignal ∉ (runObjectFinder n st).2 := by
  by_cases h : st.isFindingActive <;> simp [runObjectFinder, h]

/-- No action handler dispatched by the Coordinator signals resume itself. -/
theorem dispatchAction_no_resume (env : CmdEnv) (renderApp : AppState)
    (renderLive : Bool) (action : ActionType) (payload : Payload)
    (st : CCState) :
    Effect.resumeSignal ∉ (dispatchAction env renderApp renderLive action payload st).2 := by
  cases action with
  | DESCRIBE_SCENE => exact not_resume_of_tame (processAction_tame env renderApp true st).1
  | READ_TEXT => exact not_resume_of_tame (processAction_tame env renderApp false st).1
  | IDENTIFY_PEOPLE => exact not_resume_of_tame (processAction_tame env renderApp true st).1
  | CHECK_HAZARDS => exact not_resume_of_tame (processAction_tame env renderApp false st).1
  | ANALYZE_TERRAIN =>
      exact not_resume_of_tame (processAction_tame env renderApp false st).1
  | SAVE_ITEM => exact not_resume_of_tame (handleSaveItem_tame env st).1
  | LIVE_COMMENTARY =>
      cases renderLive <;>
        simp [dispatchAction, stopLiveCommentary_no_resume, runLiveCommentary_no_resume]
  | FIND_ITEM =>
      rcases hn : payload.itemName with _ | n
      · simp [dispatchAction, hn]
      · by_cases hne : (n != "") = true <;>
          simp [dispatchAction, hn, hne, runObjectFinder_no_resume]
  | MANAGE_ITEMS => simp [dispatchAction]
  | HELP => simp [dispatchAction]
  | ASK_QUESTION =>
      exact not_resume_of_tame (handleFollowUpQuestion_tame env renderApp st).1
  | ASK_GEMINI => exact not_resume_of_tame (handleAskGemini_tame env payload.query st).1
  | DELETE_ITEM =>
      by_cases hm : (renderApp == AppState.MANAGING_ITEMS) = true
      · rcases hn : payload.itemName with _ | n <;>
          simp [dispatchAction, hm, hn, handleDeleteItem]
      · simp [dispatchAction, hm]
  | CLOSE_MANAGEMENT =>
      by_cases hm : (renderApp == AppState.MANAGING_ITEMS) = true <;>
        simp [dispatchAction, hm]
  | STOP => simp [dispatchAction]
  | UNKNOWN => simp [dispatchAction]

/-- `handleAction` never signals resume. -/
theorem handleAction_no_resume (env : CmdEnv) (renderApp : AppState)
    (renderLive : Bool) (action : ActionType) (payload : Payload)
    (st : CCState) :
    Effect.resumeSignal ∉ (handleAction env renderApp renderLive action payload st).2 := by
  have h1 : Effect.resumeSignal ∉
      (if renderLive then stopLiveCommentary st else (st, [])).2 := by
    cases renderLive
    · simp
    · exact stopLiveCommentary_no_resume st
  have h2 : Effect.resumeSignal ∉
      (if (if renderLive then stopLiveCommentary st else (st, [])).1.isFindingActive
       then stopObjectFinder (if renderLive then stopLiveCommentary st else (st, [])).1
       else ((if renderLive then stopLiveCommentary st else (st, [])).1, [])).2 := by
    by_cases hf :
        (if renderLive then stopLiveCommentary st else (st, [])).1.isFindingActive = true
    · rw [if_pos hf]
      exact stopObjectFinder_no_resume _
    · rw [if_neg hf]
      simp
  intro hm
  simp only [handleAction, List.mem_append] at hm
  rcases hm with (hm | hm) | hm
  · exact h1 hm
  · exact h2 hm
  · exact dispatchAction_no_resume env renderApp renderLive action payload _ hm

/-- The `try`/`catch` body of the command path never signals resume itself;
the single signal comes from the `finally` block. -/
theorem cmdBody_no_resume (env : CmdEnv) (t : String) (pre : AppState)
    (rl : Bool) (st1 : CCState) :
    Effect.resumeSignal ∉ (cmdBody env t pre rl st1).2 := by
  rcases hir : env.interpretResult with e | ap
  · simp [cmdBody, hir]
  · obtain ⟨action, payload⟩ := ap
    by_cases hu : (action == ActionType.UNKNOWN) = true
    · simpa [cmdBody, hir, hu] using
        not_resume_of_tame (handleAskGemini_tame env (some t) st1).1
    · by_cases hs : (action == ActionType.STOP) = true
      · simp [cmdBody, hir, hu, hs]
      · simpa [cmdBody, hir, hu, hs] using
          handleAction_no_resume env pre rl action payload st1

/-- The `finally` state update never leaves the Coordinator in
INTERPRETING_COMMAND or ANALYZING. -/
theorem cmdFinallyApp_ne (pre mid : AppState) :
    cmdFinallyApp pre mid ≠ AppState.INTERPRETING_COMMAND ∧
    cmdFinallyApp pre mid ≠ AppState.ANALYZING := by
  cases pre <;> cases mid <;> decide

/-- C2: a transcript (interim or final) containing an interrupt word makes
the Coordinator — regardless of busy state or active Polling Loop — cancel
speech, stop both Polling Loops, set the busy state to IDLE, announce the
acknowledgment and signal resume exactly once, without ever invoking the
interpretation collaborator. -/
theorem interrupt_precedence (env : CmdEnv) (transcript : String)
    (isFinal : Bool) (st : CCState) (h : hasStopWord transcript = true) :
    (handleVoiceCommand env transcript isFinal st).1.appState = AppState.IDLE ∧
    (handleVoiceCommand env transcript isFinal st).1.isLiveActive = false ∧
    (handleVoiceCommand env transcript isFinal st).1.isFindingActive = false ∧
    Effect.cancelSpeech ∈ (handleVoiceCommand env transcript isFinal st).2 ∧
    Effect.speak "Okay, stopped." ∈ (handleVoiceCommand env transcript isFinal st).2 ∧
    (handleVoiceCommand env transcript isFinal st).2.count Effect.resumeSignal = 1 ∧
    (∀ t, Effect.interpretCall t ∉ (handleVoiceCommand env transcript isFinal st).2) := by
  cases hL : st.isLiveActive <;> cases hF : st.isFindingActive <;>
    simp [handleVoiceCommand, h, stopLiveCommentary, stopObjectFinder, hL, hF,
      List.count_append, List.count_cons]

/-- An environment in which every external collaborator fails. -/
def envFail : CmdEnv :=
  CmdEnv.mk (Except.error "no") none (Except.error "no") (Except.error "no")

/-- A Coordinator state with the commentary loop running. -/
def ccLive : CCState :=
  CCState.mk AppState.LIVE_COMMENTARY true true false none [] true true

/-- The quiescent Coordinator state. -/
def ccIdle : CCState :=
  CCState.mk AppState.IDLE false false false none [] true true

/-- Witness for C2: an interim transcript containing "stop", received while
the commentary loop is running and the busy state is LIVE_COMMENTARY. -/
theorem interrupt_precedence_witness :
    (handleVoiceCommand envFail "please stop" false ccLive).1.appState = AppState.IDLE ∧
    (handleVoiceCommand envFail "please stop" false ccLive).1.isLiveActive = false ∧
    (handleVoiceCommand envFail "please stop" false ccLive).1.isFindingActive = false ∧
    Effect.cancelSpeech ∈ (handleVoiceCommand envFail "please stop" false ccLive).2 ∧
    Effect.speak "Okay, stopped." ∈ (handleVoiceCommand envFail "please stop" false ccLive).2 ∧
    (handleVoiceCommand envFail "please stop" false ccLive).2.count Effect.resumeSignal = 1 ∧
    (∀ t, Effect.interpretCall t ∉ (handleVoiceCommand envFail "please stop" false ccLive).2) :=
  interrupt_precedence envFail "please stop" false ccLive (by decide)

/-- C4: a non-interrupt transcript that is interim, or that arrives while
the busy state is outside IDLE / AWAITING_FOLLOWUP / MANAGING_ITEMS, is
discarded with no effects and no state change; and no interim transcript
ever reaches the interpretation collaborator. -/
theorem busy_gate_discards (env : CmdEnv) (transcript : String)
    (isFinal : Bool) (st : CCState) (hw : hasStopWord transcript = false)
    (hbusy : isFinal = false ∨
      (st.appState ≠ AppState.IDLE ∧ st.appState ≠ AppState.AWAITING_FOLLOWUP ∧
       st.appState ≠ AppState.MANAGING_ITEMS)) :
    handleVoiceCommand env transcript isFinal st = (st, []) ∧
    (∀ (env2 : CmdEnv) (t2 : String) (st2 : CCState) (q : String),
      Effect.interpretCall q ∉ (handleVoiceCommand env2 t2 false st2).2) := by
  constructor
  · rcases hbusy with hf | ⟨h1, h2, h3⟩
    · subst hf; simp [handleVoiceCommand, hw]
    · have hb : isBusy st.appState = true := by
        cases hst : st.appState <;> simp_all [isBusy]
      simp [handleVoiceCommand, hw, hb]
  · intro env2 t2 st2 q
    by_cases h2 : hasStopWord t2 = true
    · cases hL : st2.isLiveActive <;> cases hF : st2.isFindingActive <;>
        simp [handleVoiceCommand, h2, stopLiveCommentary, stopObjectFinder, hL, hF]
    · simp [handleVoiceCommand, h2]

/-- Witness for C4: a final "read text" transcript arriving while the busy
state is ANALYZING is discarded. -/
theorem busy_gate_discards_witness :
    handleVoiceCommand envFail "read text" true
        (CCState.mk AppState.ANALYZING false false false none [] true true)
      = (CCState.mk AppState.ANALYZING false false false none [] true true, []) ∧
    (∀ (env2 : CmdEnv) (t2 : String) (st2 : CCState) (q : String),
      Effect.interpretCall q ∉ (handleVoiceCommand env2 t2 false st2).2) :=
  busy_gate_discards envFail "read text" true
    (CCState.mk AppState.ANALYZING false false false none [] true true)
    (by decide) (Or.inr (by decide))

/-- C3 counterexample: the final transcript "describe the scene" from IDLE,
with interpretation succeeding and the scene-description handler succeeding,
reaches interpretation but leaves the busy state in AWAITING_FOLLOWUP — not
IDLE as the claim requires (the pre-command state was not MANAGING_ITEMS). -/
theorem command_cleanup_counterexample :
    (CCState.mk AppState.IDLE false false false none [] true true).appState
        = AppState.IDLE ∧
    Effect.interpretCall "describe the scene" ∈
      (handleVoiceCommand
        (CmdEnv.mk (Except.ok (ActionType.DESCRIBE_SCENE, Payload.mk none none))
          (some "img") (Except.ok "A kitchen counter.") (Except.error "x"))
        "describe the scene" true
        (CCState.mk AppState.IDLE false false false none [] true true)).2 ∧
    (handleVoiceCommand
        (CmdEnv.mk (Except.ok (ActionType.DESCRIBE_SCENE, Payload.mk none none))
          (some "img") (Except.ok "A kitchen counter.") (Except.error "x"))
        "describe the scene" true
        (CCState.mk AppState.IDLE false false false none [] true true)).1.appState
      = AppState.AWAITING_FOLLOWUP ∧
    AppState.AWAITING_FOLLOWUP ≠ AppState.IDLE := by
  decide

/-- C3 amended: for every final non-interrupt transcript accepted by the
busy gate (so it reaches interpretation), the resume signal is emitted
exactly once — never zero, never twice — whatever the interpretation and
handler outcomes; the busy state never remains INTERPRETING_COMMAND or
ANALYZING; and whenever command processing ends with the state still
INTERPRETING_COMMAND or ANALYZING (in particular on interpretation failure)
it is restored to MANAGING_ITEMS if that was the pre-command state and to
IDLE otherwise.  A handler that deliberately moved to a different resting
state (AWAITING_FOLLOWUP, LIVE_COMMENTARY, FINDING_ITEM, MANAGING_ITEMS)
keeps that state. -/
theorem command_cleanup (env : CmdEnv) (transcript : String) (st : CCState)
    (hw : hasStopWord transcript = false) (hb : isBusy st.appState = false) :
    (handleVoiceCommand env transcript true st).2.count Effect.resumeSignal = 1 ∧
    Effect.interpretCall transcript ∈ (handleVoiceCommand env transcript true st).2 ∧
    (handleVoiceCommand env transcript true st).1.appState
      ≠ AppState.INTERPRETING_COMMAND ∧
    (handleVoiceCommand env transcript true st).1.appState ≠ AppState.ANALYZING ∧
    (∀ e, env.interpretResult = Except.error e →
      (handleVoiceCommand env transcript true st).1.appState
        = (if st.appState = AppState.MANAGING_ITEMS then AppState.MANAGING_ITEMS
           else AppState.IDLE)) := by
  have hred : handleVoiceCommand env transcript true st
      = ({ (cmdBody env transcript st.appState st.isLive
              { st with appState := AppState.INTERPRETING_COMMAND }).1 with
            appState := cmdFinallyApp st.appState
              (cmdBody env transcript st.appState st.isLive
                { st with appState := AppState.INTERPRETING_COMMAND }).1.appState },
         [Effect.setApp AppState.INTERPRETING_COMMAND, Effect.interpretCall transcript]
           ++ (cmdBody env transcript st.appState st.isLive
                { st with appState := AppState.INTERPRETING_COMMAND }).2
           ++ [Effect.setApp (cmdFinallyApp st.appState
                 (cmdBody env transcript st.appState st.isLive
                   { st with appState := AppState.INTERPRETING_COMMAND }).1.appState),
               Effect.resumeSignal]) := by
    simp [handleVoiceCommand, hw, hb]
  rw [hred]
  refine ⟨?_, ?_, ?_, ?_, ?_⟩
  · have h0 : (cmdBody env transcript st.appState st.isLive
        { st with appState := AppState.INTERPRETING_COMMAND }).2.count
          Effect.resumeSignal = 0 :=
      List.count_eq_zero.mpr (cmdBody_no_resume env transcript st.appState st.isLive _)
    simp [List.count_append, List.count_cons, h0]
  · simp
  · simpa using (cmdFinallyApp_ne st.appState _).1
  · simpa using (cmdFinallyApp_ne st.appState _).2
  · intro e he
    simp [cmdBody, he, cmdFinallyApp]

/-- Witness for the amended C3: a final "read text" transcript from IDLE
with failing interpretation. -/
theorem command_cleanup_witness :
    (handleVoiceCommand envFail "read text" true ccIdle).2.count Effect.resumeSignal = 1 ∧
    Effect.interpretCall "read text" ∈ (handleVoiceCommand envFail "read text" true ccIdle).2 ∧
    (handleVoiceCommand envFail "read text" true ccIdle).1.appState
      ≠ AppState.INTERPRETING_COMMAND ∧
    (handleVoiceCommand envFail "read text" true ccIdle).1.appState ≠ AppState.ANALYZING ∧
    (∀ e, envFail.interpretResult = Except.error e →
      (handleVoiceCommand envFail "read text" true ccIdle).1.appState
        = (if ccIdle.appState = AppState.MANAGING_ITEMS then AppState.MANAGING_ITEMS
           else AppState.IDLE)) :=
  command_cleanup envFail "read text" ccIdle (by decide) (by decide)

/-- C5 counterexample: in the object-search loop an analysis failure is not
caught — the iteration ends in `errored`, not `continueLoop`, and a
subsequent iteration never runs (one analysis call in the whole run). -/
theorem finder_error_terminates_counterexample :
    (finderIteration
        (FinderWorld.mk true (some "frame") (Except.error "analysis failed") true)).1
      = IterOutcome.errored "analysis failed" ∧
    IterOutcome.errored "analysis failed" ≠ IterOutcome.continueLoop ∧
    (finderRun
        [FinderWorld.mk true (some "frame") (Except.error "analysis failed") true,
         FinderWorld.mk true (some "frame") (Except.ok "Found it.") true]).2.count
        LoopEvent.analysisCall = 1 := by
  decide

/-- C5 amended: in the live-commentary loop a failure of the analysis
collaborator is caught and swallowed at the iteration level and the loop
continues (and nothing is spoken); in the object-search loop the same
failure escapes the uncaught `await findObject` and terminates the loop. -/
theorem polling_loop_error_swallowing :
    (∀ (img e : String) (f3 : Bool),
      (liveIteration (LiveWorld.mk true (some img) true (Except.error e) f3)).1
        = IterOutcome.continueLoop ∧
      (∀ m, LoopEvent.speakResult m ∉
        (liveIteration (LiveWorld.mk true (some img) true (Except.error e) f3)).2)) ∧
    (∀ (img e : String) (f3 : Bool),
      (finderIteration (FinderWorld.mk true (some img) (Except.error e) f3)).1
        = IterOutcome.errored e) := by
  constructor
  · intro img e f3
    constructor
    · simp [liveIteration]
    · intro m; simp [liveIteration]
  · intro img e f3
    simp [finderIteration]

/-- C6 counterexample: a full object-search iteration (frame captured,
analysis returned) reads the active flag only twice, not at the three
claimed checkpoints. -/
theorem finder_checkpoints_counterexample :
    ((finderIteration
        (FinderWorld.mk true (some "frame") (Except.ok "On the table.") true)).2.countP
        isFlagRead) = 2 ∧ (2 : Nat) ≠ 3 := by
  decide

/-- C6 amended: a full commentary iteration observes the active flag at
three checkpoints (before capture, after capture, after analysis) while a
full object-search iteration observes it at two (before capture and after
the analysis call returns); in both loops, when stop() has cleared the flag
by the post-analysis checkpoint, no analysis result is spoken — the
commentary iteration skips speaking, and the object-search iteration exits
via break. -/
theorem loop_checkpoints (img d : String) :
    ((liveIteration (LiveWorld.mk true (some img) true (Except.ok d) true)).2.countP
        isFlagRead) = 3 ∧
    ((finderIteration (FinderWorld.mk true (some img) (Except.ok d) true)).2.countP
        isFlagRead) = 2 ∧
    (∀ m, LoopEvent.speakResult m ∉
      (liveIteration (LiveWorld.mk true (some img) true (Except.ok d) false)).2) ∧
    (finderIteration (FinderWorld.mk true (some img) (Except.ok d) false)).1
      = IterOutcome.breakLoop ∧
    (∀ m, LoopEvent.speakResult m ∉
      (finderIteration (FinderWorld.mk true (some img) (Except.ok d) false)).2) := by
  refine ⟨?_, ?_, ?_, ?_, ?_⟩
  · by_cases hd : (d != "") = true <;>
      simp [liveIteration, isFlagRead, hd, List.countP_cons]
  · by_cases hd : (d != "I don\x27t see it here.") = true <;>
      simp [finderIteration, isFlagRead, hd, List.countP_cons]
  · intro m; simp [liveIteration]
  · simp [finderIteration]
  · intro m; simp [finderIteration]

/-- Every event of an object-search run whose iterations all see an active
flag and a null frame is a flag read or a capture call. -/
theorem finderRun_null_events (ws : List FinderWorld)
    (hws : ∀ u ∈ ws, u.flagBeforeCapture = true ∧ u.captureResult = none) :
    ∀ e ∈ (finderRun ws).2,
      e = LoopEvent.flagRead true ∨ e = LoopEvent.captureCall := by
  induction ws with
  | nil => simp [finderRun]
  | cons w ws ih =>
    have hw := hws w (by simp)
    have hit : finderIteration w
        = (IterOutcome.continueLoop,
           [LoopEvent.flagRead true, LoopEvent.captureCall]) := by
      simp [finderIteration, hw.1, hw.2]
    intro e he
    simp only [finderRun, hit] at he
    rcases List.mem_append.mp he with h | h
    · simpa using h
    · exact ih (fun u hu => hws u (by simp [hu])) e h

/-- C10: an object-search iteration that sees an active flag and a null
frame re-enters the loop immediately with no analysis call, no speech and no
inter-frame delay; for as long as every iteration keeps capturing null with
the flag set, the run contains no asynchronous suspension point at all. -/
theorem finder_null_capture_spins (w : FinderWorld)
    (hf : w.flagBeforeCapture = true) (hc : w.captureResult = none) :
    finderIteration w
      = (IterOutcome.continueLoop,
         [LoopEvent.flagRead true, LoopEvent.captureCall]) ∧
    (∀ ws : List FinderWorld,
      (∀ u ∈ ws, u.flagBeforeCapture = true ∧ u.captureResult = none) →
      ∀ e ∈ (finderRun ws).2,
        isSuspension e = false ∧ e ≠ LoopEvent.analysisCall ∧
        (∀ m, e ≠ LoopEvent.speakResult m) ∧
        (∀ ms, e ≠ LoopEvent.interFrameDelay ms)) := by
  refine ⟨by simp [finderIteration, hf, hc], ?_⟩
  intro ws hws e he
  rcases finderRun_null_events ws hws e he with h | h <;> subst h <;>
    simp [isSuspension]

/-- Witness for C10 at a concrete world and a two-iteration null run. -/
theorem finder_null_capture_spins_witness :
    finderIteration (FinderWorld.mk true none (Except.error "e") true)
      = (IterOutcome.continueLoop,
         [LoopEvent.flagRead true, LoopEvent.captureCall]) ∧
    (∀ ws : List FinderWorld,
      (∀ u ∈ ws, u.flagBeforeCapture = true ∧ u.captureResult = none) →
      ∀ e ∈ (finderRun ws).2,
        isSuspension e = false ∧ e ≠ LoopEvent.analysisCall ∧
        (∀ m, e ≠ LoopEvent.speakResult m) ∧
        (∀ ms, e ≠ LoopEvent.interFrameDelay ms)) :=
  finder_null_capture_spins (FinderWorld.mk true none (Except.error "e") true) rfl rfl

/-- Tame effects do not move the loop-flag pair. -/
theorem flagsAfter_tame (p : Bool × Bool) (e : Effect)
    (h : tameEffect e = true) : flagsAfter p e = p := by
  cases e <;> simp_all [tameEffect, flagsAfter]

/-- A list of tame effects keeps the loop-flag pair at-most-one throughout,
provided it holds initially. -/
theorem flagStatesOK_tame (l : List Effect) (p : Bool × Bool)
    (h : ∀ e ∈ l, tameEffect e = true) (hp : atMostOne p = true) :
    flagStatesOK p l = true := by
  induction l with
  | nil => simpa [flagStatesOK]
  | cons e l ih =>
    have he := h e (List.mem_cons_self e l)
    simp only [flagStatesOK, flagsAfter_tame p e he, hp, Bool.true_and]
    exact ih (fun x hx => h x (List.mem_cons_of_mem e hx))

/-- Starting from a state with both loop flags clear, every dispatched
action keeps the loop-flag pair at-most-one at every instant of its effect
list and in its final state. -/
theorem dispatchAction_safe (env : CmdEnv) (renderApp : AppState)
    (renderLive : Bool) (action : ActionType) (payload : Payload)
    (st : CCState) (hL : st.isLiveActive = false)
    (hF : st.isFindingActive = false) :
    atMostOne ((dispatchAction env renderApp renderLive action payload st).1.isLiveActive,
      (dispatchAction env renderApp renderLive action payload st).1.isFindingActive) = true ∧
    flagStatesOK (false, false)
      (dispatchAction env renderApp renderLive action payload st).2 = true := by
  cases action with
  | DESCRIBE_SCENE =>
      obtain ⟨ht, hl2, hf2⟩ := processAction_tame env renderApp true st
      refine ⟨by simp [dispatchAction, hl2, hf2, hL, hF, atMostOne], ?_⟩
      have h := flagStatesOK_tame _ (false, false) ht (by simp [atMostOne])
      simpa [dispatchAction] using h
  | READ_TEXT =>
      obtain ⟨ht, hl2, hf2⟩ := processAction_tame env renderApp false st
      refine ⟨by simp [dispatchAction, hl2, hf2, hL, hF, atMostOne], ?_⟩
      have h := flagStatesOK_tame _ (false, false) ht (by simp [atMostOne])
      simpa [dispatchAction] using h
  | IDENTIFY_PEOPLE =>
      obtain ⟨ht, hl2, hf2⟩ := processAction_tame env renderApp true st
      refine ⟨by simp [dispatchAction, hl2, hf2, hL, hF, atMostOne], ?_⟩
      have h := flagStatesOK_tame _ (false, false) ht (by simp [atMostOne])
      simpa [dispatchAction] using h
  | CHECK_HAZARDS =>
      obtain ⟨ht, hl2, hf2⟩ := processAction_tame env renderApp false st
      refine ⟨by simp [dispatchAction, hl2, hf2, hL, hF, atMostOne], ?_⟩
      have h := flagStatesOK_tame _ (false, false) ht (by simp [atMostOne])
      simpa [dispatchAction] using h
  | ANALYZE_TERRAIN =>
      obtain ⟨ht, hl2, hf2⟩ := processAction_tame env renderApp false st
      refine ⟨by simp [dispatchAction, processTerrainAction, hl2, hf2, hL, hF, atMostOne], ?_⟩
      have h := flagStatesOK_tame _ (false, false) ht (by simp [atMostOne])
      simpa [dispatchAction, processTerrainAction] using h
  | SAVE_ITEM =>
      obtain ⟨ht, hl2, hf2⟩ := handleSaveItem_tame env st
      refine ⟨by simp [dispatchAction, hl2, hf2, hL, hF, atMostOne], ?_⟩
      have h := flagStatesOK_tame _ (false, false) ht (by simp [atMostOne])
      simpa [dispatchAction] using h
  | LIVE_COMMENTARY =>
      cases renderLive <;>
        refine ⟨?_, ?_⟩ <;>
        simp [dispatchAction, runLiveCommentary, stopLiveCommentary, hL, hF,
          atMostOne, flagStatesOK, flagsAfter]
  | FIND_ITEM =>
      rcases hn : payload.itemName with _ | n
      · refine ⟨?_, ?_⟩ <;>
          simp [dispatchAction, hn, hL, hF, atMostOne, flagStatesOK]
      · by_cases hne : (n != "") = true <;>
          refine ⟨?_, ?_⟩ <;>
          simp [dispatchAction, hn, hne, runObjectFinder, hL, hF, atMostOne,
            flagStatesOK, flagsAfter]
  | MANAGE_ITEMS =>
      refine ⟨?_, ?_⟩ <;>
        simp [dispatchAction, hL, hF, atMostOne, flagStatesOK, flagsAfter]
  | HELP =>
      refine ⟨?_, ?_⟩ <;>
        simp [dispatchAction, hL, hF, atMostOne, flagStatesOK, flagsAfter]
  | ASK_QUESTION =>
      obtain ⟨ht, hl2, hf2⟩ := handleFollowUpQuestion_tame env renderApp st
      refine ⟨by simp [dispatchAction, hl2, hf2, hL, hF, atMostOne], ?_⟩
      have h := flagStatesOK_tame _ (false, false) ht (by simp [atMostOne])
      simpa [dispatchAction] using h
  | ASK_GEMINI =>
      obtain ⟨ht, hl2, hf2⟩ := handleAskGemini_tame env payload.query st
      refine ⟨by simp [dispatchAction, hl2, hf2, hL, hF, atMostOne], ?_⟩
      have h := flagStatesOK_tame _ (false, false) ht (by simp [atMostOne])
      simpa [dispatchAction] using h
  | DELETE_ITEM =>
      by_cases hm : (renderApp == AppState.MANAGING_ITEMS) = true
      · rcases hn : payload.itemName with _ | n <;>
          refine ⟨?_, ?_⟩ <;>
          simp [dispatchAction, hm, hn, handleDeleteItem, hL, hF, atMostOne,
            flagStatesOK, flagsAfter]
      · refine ⟨?_, ?_⟩ <;>
          simp [dispatchAction, hm, hL, hF, atMostOne, flagStatesOK]
  | CLOSE_MANAGEMENT =>
      by_cases hm : (renderApp == AppState.MANAGING_ITEMS) = true <;>
        refine ⟨?_, ?_⟩ <;>
        simp [dispatchAction, hm, hL, hF, atMostOne, flagStatesOK, flagsAfter]
  | STOP =>
      refine ⟨?_, ?_⟩ <;> simp [dispatchAction, hL, hF, atMostOne, flagStatesOK]
  | UNKNOWN =>
      refine ⟨?_, ?_⟩ <;> simp [dispatchAction, hL, hF, atMostOne, flagStatesOK]

/-- C7: at most one Polling Loop is active at any instant — across any
action handled by `handleAction` from a consistent state, the
`(isLiveActive, isFindingActive)` pair never has both flags set, neither in
the final state nor at any point of the effect trace; starting a loop kind
that is already active is a no-op; and starting the object search while the
commentary loop is active clears the commentary flag strictly before setting
the finder flag. -/
theorem single_active_loop (env : CmdEnv) (renderApp : AppState)
    (action : ActionType) (payload : Payload) (st : CCState)
    (hmirror : st.isLive = st.isLiveActive)
    (hone : atMostOne (st.isLiveActive, st.isFindingActive) = true) :
    atMostOne ((handleAction env renderApp st.isLive action payload st).1.isLiveActive,
      (handleAction env renderApp st.isLive action payload st).1.isFindingActive) = true ∧
    flagStatesOK (st.isLiveActive, st.isFindingActive)
      (handleAction env renderApp st.isLive action payload st).2 = true ∧
    (st.isLiveActive = true → runLiveCommentary st = (st, [])) ∧
    (∀ n, st.isFindingActive = true → runObjectFinder n st = (st, [])) ∧
    (action = ActionType.FIND_ITEM → st.isLiveActive = true →
      ∀ n, payload.itemName = some n → (n != "") = true →
      (handleAction env renderApp st.isLive action payload st).1.isLiveActive = false ∧
      (handleAction env renderApp st.isLive action payload st).1.isFindingActive = true ∧
      ∃ l2 l3, (handleAction env renderApp st.isLive action payload st).2
        = Effect.liveFlagWrite false :: (l2 ++ Effect.findFlagWrite true :: l3)) := by
  have hC1 : st.isLiveActive = true → runLiveCommentary st = (st, []) := by
    intro h; simp [runLiveCommentary, h]
  have hC2 : ∀ n, st.isFindingActive = true → runObjectFinder n st = (st, []) := by
    intro n h; simp [runObjectFinder, h]
  rw [hmirror]
  cases hL : st.isLiveActive <;> cases hF : st.isFindingActive
  · -- no loop active
    by_cases ha : (action != ActionType.ASK_QUESTION) = true
    · have hs := dispatchAction_safe env renderApp false action payload
        { st with lastAnalyzedImage := none } (by simp [hL]) (by simp [hF])
      refine ⟨?_, ?_, fun h => absurd h Bool.false_ne_true,
        fun n h => absurd h Bool.false_ne_true, ?_⟩
      · simpa [handleAction, hF, ha] using hs.1
      · simpa [handleAction, hF, ha] using hs.2
      · intro _ hLt; exact absurd hLt Bool.false_ne_true
    · have hs := dispatchAction_safe env renderApp false action payload st hL hF
      refine ⟨?_, ?_, fun h => absurd h Bool.false_ne_true,
        fun n h => absurd h Bool.false_ne_true, ?_⟩
      · simpa [handleAction, hF, ha] using hs.1
      · simpa [handleAction, hF, ha] using hs.2
      · intro _ hLt; exact absurd hLt Bool.false_ne_true
  · -- finder active, commentary not
    by_cases ha : (action != ActionType.ASK_QUESTION) = true
    · have hs := dispatchAction_safe env renderApp false action payload
        { st with isFindingActive := false, appState := AppState.IDLE,
                  lastAnalyzedImage := none } (by simp [hL]) (by simp)
      refine ⟨?_, ?_, fun h => absurd h Bool.false_ne_true,
        fun n _ => hC2 n hF, ?_⟩
      · simpa [handleAction, stopObjectFinder, hF, ha] using hs.1
      · simpa [handleAction, stopObjectFinder, hF, ha, flagStatesOK, flagsAfter,
          atMostOne] using hs.2
      · intro _ hLt; exact absurd hLt Bool.false_ne_true
    · have hs := dispatchAction_safe env renderApp false action payload
        { st with isFindingActive := false, appState := AppState.IDLE }
        (by simp [hL]) (by simp)
      refine ⟨?_, ?_, fun h => absurd h Bool.false_ne_true,
        fun n _ => hC2 n hF, ?_⟩
      · simpa [handleAction, stopObjectFinder, hF, ha] using hs.1
      · simpa [handleAction, stopObjectFinder, hF, ha, flagStatesOK, flagsAfter,
          atMostOne] using hs.2
      · intro _ hLt; exact absurd hLt Bool.false_ne_true
  · -- commentary active, finder not
    by_cases ha : (action != ActionType.ASK_QUESTION) = true
    · have hs := dispatchAction_safe env renderApp true action payload
        { st with isLiveActive := false, isLive := false,
                  appState := AppState.IDLE, lastAnalyzedImage := none }
        (by simp) (by simp [hF])
      refine ⟨?_, ?_, fun _ => hC1 hL, fun n h => absurd h Bool.false_ne_true, ?_⟩
      · simpa [handleAction, stopLiveCommentary, hL, hF, ha] using hs.1
      · simpa [handleAction, stopLiveCommentary, hL, hF, ha, flagStatesOK,
          flagsAfter, atMostOne] using hs.2
      · intro hact hLt n hn hne
        subst hact
        refine ⟨?_, ?_, [Effect.setApp AppState.IDLE, Effect.cancelSpeech],
          [Effect.setApp AppState.FINDING_ITEM,
           Effect.speak ("Looking for " ++ n ++
             ". Pan your camera around. Say \x27stop\x27 to exit.")], ?_⟩ <;>
          simp [handleAction, dispatchAction, stopLiveCommentary,
            runObjectFinder, hL, hF, hn, hne]
    · have haq : action = ActionType.ASK_QUESTION := by simpa using ha
      have hs := dispatchAction_safe env renderApp true action payload
        { st with isLiveActive := false, isLive := false,
                  appState := AppState.IDLE }
        (by simp) (by simp [hF])
      refine ⟨?_, ?_, fun _ => hC1 hL, fun n h => absurd h Bool.false_ne_true, ?_⟩
      · simpa [handleAction, stopLiveCommentary, hL, hF, ha] using hs.1
      · simpa [handleAction, stopLiveCommentary, hL, hF, ha, flagStatesOK,
          flagsAfter, atMostOne] using hs.2
      · intro hact _ n hn hne
        rw [haq] at hact
        exact absurd hact (by simp)
  · -- both flags set: excluded by the invariant
    rw [hL, hF] at hone
    simp [atMostOne] at hone

/-- Witness for C7: dispatching FIND_ITEM for "keys" while the commentary
loop is active. -/
theorem single_active_loop_witness :
    atMostOne ((handleAction envFail AppState.IDLE ccLive.isLive ActionType.FIND_ITEM
        (Payload.mk (some "keys") none) ccLive).1.isLiveActive,
      (handleAction envFail AppState.IDLE ccLive.isLive ActionType.FIND_ITEM
        (Payload.mk (some "keys") none) ccLive).1.isFindingActive) = true ∧
    flagStatesOK (ccLive.isLiveActive, ccLive.isFindingActive)
      (handleAction envFail AppState.IDLE ccLive.isLive ActionType.FIND_ITEM
        (Payload.mk (some "keys") none) ccLive).2 = true ∧
    (ccLive.isLiveActive = true → runLiveCommentary ccLive = (ccLive, [])) ∧
    (∀ n, ccLive.isFindingActive = true → runObjectFinder n ccLive = (ccLive, [])) ∧
    (ActionType.FIND_ITEM = ActionType.FIND_ITEM → ccLive.isLiveActive = true →
      ∀ n, (Payload.mk (some "keys") none).itemName = some n → (n != "") = true →
      (handleAction envFail AppState.IDLE ccLive.isLive ActionType.FIND_ITEM
        (Payload.mk (some "keys") none) ccLive).1.isLiveActive = false ∧
      (handleAction envFail AppState.IDLE ccLive.isLive ActionType.FIND_ITEM
        (Payload.mk (some "keys") none) ccLive).1.isFindingActive = true ∧
      ∃ l2 l3, (handleAction envFail AppState.IDLE ccLive.isLive ActionType.FIND_ITEM
        (Payload.mk (some "keys") none) ccLive).2
        = Effect.liveFlagWrite false :: (l2 ++ Effect.findFlagWrite true :: l3)) :=
  single_active_loop envFail AppState.IDLE ActionType.FIND_ITEM
    (Payload.mk (some "keys") none) ccLive rfl (by decide)

end IRIS
